import Mathlib

set_option maxRecDepth 8000

/-
Verification development for the smart-calculator repository.

Source model (namespace PyModel): a shallow embedding of
CalculatorEngine.calculate from src/Calculator_project.py and
src/Calculater_project.py.  Both files rewrite the display string with
str.replace and re.sub and then hand the result to a general evaluator;
we model the rewriting exactly and the evaluation over the arithmetic
fragment that the rewritten strings can fall into, with numbers idealized
as exact integers and exact reals (binary64 rounding is not modelled).

Spec model (namespace SpecModel): a shallow embedding of the tokenizer,
parser and evaluator specified in spec.md for the re-architected core
(the CalculatorEngine.evaluate_expression referenced by src/testing.py
but absent from src/).
-/

namespace PyModel

/-- Characters matched by the regex class \s in the source patterns
(space, tab, newline, carriage return). -/
def isWsC (c : Char) : Bool := c = ' ' || c = '\t' || c = '\n' || c = '\r'

/-- The character class [0-9.] used by the square-root pattern. -/
def isNumC (c : Char) : Bool := c.isDigit || c = '.'

/-- Models Python str.replace for a one-character pattern with a
one-character replacement, as in expr.replace("×", "*"). -/
def replaceChar (a b : Char) (l : List Char) : List Char :=
l.map fun c => if c = a then b else c

/-- Models expr.replace("^", "**"): every caret becomes a double star. -/
def expandCaret : List Char → List Char
| [] => []
| c :: cs => (if c = '^' then ['*', '*'] else [c]) ++ expandCaret cs

/-- The capture group \s*([^,]+) of the nth-root pattern (and likewise
\s*([^)]+)): leading whitespace is eaten by the greedy \s*, and when the
whole run is whitespace the engine backtracks so that the group keeps
exactly the last whitespace character. Returns none when the run is empty. -/
def rootGroup (pre : List Char) : Option (List Char) :=
match pre.dropWhile isWsC with
| [] =>
  match pre.reverse with
  | [] => none
  | l :: _ => some [l]
| g => some g

/-- One attempted match of re.sub(r'√\(\s*([^,]+)\s*,\s*([^)]+)\s*\)',
r'(\2 ** (1/\1))', expr) at the head of the character list.  On success
returns the replacement text and the remaining input after the match. -/
def tryRootAt : List Char → Option (List Char × List Char)
| '√' :: '(' :: r =>
  let pre1 := r.takeWhile fun c => c ≠ ','
  match r.dropWhile (fun c => c ≠ ',') with
  | ',' :: r2 =>
    match rootGroup pre1 with
    | none => none
    | some g1 =>
      let pre2 := r2.takeWhile fun c => c ≠ ')'
      match r2.dropWhile (fun c => c ≠ ')') with
      | ')' :: rest =>
        match rootGroup pre2 with
        | none => none
        | some g2 => some ("(".data ++ g2 ++ " ** (1/".data ++ g1 ++ "))".data, rest)
      | _ => none
  | _ => none
| _ => none

/-- Left-to-right global substitution for the nth-root pattern:
replacements are emitted to the output and never rescanned, scanning
resumes right after each match, exactly as re.sub does. -/
def scanRoot : Nat → List Char → List Char
| 0, cs => cs
| _ + 1, [] => []
| f + 1, c :: cs =>
  match tryRootAt (c :: cs) with
  | some (rep, rest) => rep ++ scanRoot f rest
  | none => c :: scanRoot f cs

/-- One attempted match of re.sub(r'√\(?([0-9.]+)\)?', r'math.sqrt(\1)',
expr) at the head of the list: optional opening parenthesis, a nonempty
run of [0-9.], then an optional closing parenthesis (consumed whether or
not the opening one was present, faithful to the regex). -/
def trySqrtAt : List Char → Option (List Char × List Char)
| '√' :: r =>
  match r with
  | '(' :: r2 =>
    let ds := r2.takeWhile isNumC
    if ds.isEmpty then none
    else
      match r2.dropWhile isNumC with
      | ')' :: rest => some ("math.sqrt(".data ++ ds ++ ")".data, rest)
      | r3 => some ("math.sqrt(".data ++ ds ++ ")".data, r3)
  | _ =>
    let ds := r.takeWhile isNumC
    if ds.isEmpty then none
    else
      match r.dropWhile isNumC with
      | ')' :: rest => some ("math.sqrt(".data ++ ds ++ ")".data, rest)
      | r3 => some ("math.sqrt(".data ++ ds ++ ")".data, r3)
| _ => none

/-- Global substitution loop for the square-root pattern. -/
def scanSqrt : Nat → List Char → List Char
| 0, cs => cs
| _ + 1, [] => []
| f + 1, c :: cs =>
  match trySqrtAt (c :: cs) with
  | some (rep, rest) => rep ++ scanSqrt f rest
  | none => c :: scanSqrt f cs

/-- Strips a literal pattern from the front of the input. -/
def dropPat : List Char → List Char → Option (List Char)
| [], cs => some cs
| _ :: _, [] => none
| p :: ps, c :: cs => if c = p then dropPat ps cs else none

/-- One attempted match of a function pattern name\(([^)]+)\) at the head
of the list: the literal name, an opening parenthesis, a nonempty run of
non-')' characters, and the closing parenthesis. Returns the captured
group and the rest of the input. -/
def tryFnAt (pat : List Char) (cs : List Char) : Option (List Char × List Char) :=
match dropPat pat cs with
| none => none
| some r1 =>
  match r1 with
  | '(' :: r2 =>
    let g := r2.takeWhile fun c => c ≠ ')'
    if g.isEmpty then none
    else
      match r2.dropWhile (fun c => c ≠ ')') with
      | ')' :: rest => some (g, rest)
      | _ => none
  | _ => none

/-- Global substitution loop for a function pattern: each match
name\(([^)]+)\) is rewritten to pre ++ group ++ post (for example
sin\(([^)]+)\) to math.sin(math.radians(\1))). -/
def scanFn (pat pre post : List Char) : Nat → List Char → List Char
| 0, cs => cs
| _ + 1, [] => []
| f + 1, c :: cs =>
  match tryFnAt pat (c :: cs) with
  | some (g, rest) => pre ++ g ++ post ++ scanFn pat pre post f rest
  | none => c :: scanFn pat pre post f cs

/-- re.sub for the nth-root pattern over a whole string. -/
def subRoot (l : List Char) : List Char := scanRoot l.length l

/-- re.sub for the square-root pattern over a whole string. -/
def subSqrt (l : List Char) : List Char := scanSqrt l.length l

/-- re.sub for one function pattern over a whole string. -/
def subFn (pat pre post : List Char) (l : List Char) : List Char :=
scanFn pat pre post l.length l

/-- The full substitution pipeline of CalculatorEngine.calculate in
src/Calculator_project.py, in source order: ×, ÷, ^ replacements, the
nth-root and square-root patterns, sin, cos, tan, asin, acos, atan, log. -/
def pipelineCalculator (s : String) : String :=
String.mk (
  subFn "log".data "math.log10(".data ")".data (
  subFn "atan".data "math.degrees(math.atan(".data "))".data (
  subFn "acos".data "math.degrees(math.acos(".data "))".data (
  subFn "asin".data "math.degrees(math.asin(".data "))".data (
  subFn "tan".data "math.tan(math.radians(".data "))".data (
  subFn "cos".data "math.cos(math.radians(".data "))".data (
  subFn "sin".data "math.sin(math.radians(".data "))".data (
  subSqrt (
  subRoot (
  expandCaret (
  replaceChar '÷' '/' (
  replaceChar '×' '*' s.data))))))))))))

/-- The full substitution pipeline of CalculatorEngine.calculate in
src/Calculater_project.py; the file performs the same replacements in the
same order as src/Calculator_project.py. -/
def pipelineCalculater (s : String) : String :=
String.mk (
  subFn "log".data "math.log10(".data ")".data (
  subFn "atan".data "math.degrees(math.atan(".data "))".data (
  subFn "acos".data "math.degrees(math.acos(".data "))".data (
  subFn "asin".data "math.degrees(math.asin(".data "))".data (
  subFn "tan".data "math.tan(math.radians(".data "))".data (
  subFn "cos".data "math.cos(math.radians(".data "))".data (
  subFn "sin".data "math.sin(math.radians(".data "))".data (
  subSqrt (
  subRoot (
  expandCaret (
  replaceChar '÷' '/' (
  replaceChar '×' '*' s.data))))))))))))

end PyModel


namespace PyModel

/-- Error kinds that Python raises while evaluating the rewritten string;
the source's bare except collapses all of them into the display text
"Error". complexValue marks a negative float base raised to a non-integer
exponent, where Python 3 actually produces a complex number; no input
exercised here reaches that branch. -/
inductive PErr where
| zeroDivisionError
| valueError
| nameError
| synErr
| complexValue
deriving DecidableEq

/-- A Python numeric value: int or float. Floats are idealized as exact
real numbers (no binary64 rounding). -/
inductive PyVal where
| vint (n : ℤ)
| vfloat (x : ℝ)

/-- Numeric coercion int → float used by Python's mixed arithmetic. -/
noncomputable def toR : PyVal → ℝ
| .vint n => (n : ℝ)
| .vfloat x => x

/-- The math-module functions that the substituted strings can mention. -/
inductive PFn where
| sqrtF | sinF | cosF | tanF | asinF | acosF | atanF | log10F | radiansF | degreesF
deriving DecidableEq

/-- Tokens of the Python arithmetic fragment.  A float literal is kept
as its digit parts: integer part ip, fractional digits fp with k decimal
places, denoting ip + fp / 10 ^ k (exact, no binary64 rounding). -/
inductive PTok where
| tint (n : ℤ)
| tflt (ip fp k : ℕ)
| plusT | minusT | starT | slashT | powT | lparenT | rparenT
| nameT (f : PFn)
deriving DecidableEq

/-- Expressions of the Python arithmetic fragment, as parsed by eval;
float literals keep their digit parts as in PTok. -/
inductive PExpr where
| intLit (n : ℤ)
| fltLit (ip fp k : ℕ)
| addE (a b : PExpr)
| subE (a b : PExpr)
| mulE (a b : PExpr)
| divE (a b : PExpr)
| powE (a b : PExpr)
| negE (a : PExpr)
| callE (f : PFn) (a : PExpr)

/-- Numeric value of a digit list, most significant first. -/
def natFromDigits (ds : List Char) : ℕ :=
ds.foldl (fun a c => 10 * a + (c.toNat - 48)) 0

/-- Lexes a maximal run of digits and dots into a Python number token:
no dot gives an int, one dot a float, anything else is a syntax error. -/
def pyNumTok (ds : List Char) : Option PTok :=
match (ds.filter fun c => c = '.').length with
| 0 => some (.tint (natFromDigits ds : ℤ))
| 1 =>
  if ds.length = 1 then none
  else
    let ip := ds.takeWhile fun c => c ≠ '.'
    let fp := (ds.dropWhile fun c => c ≠ '.').tail
    some (.tflt (natFromDigits ip) (natFromDigits fp) fp.length)
| _ => none

/-- Characters that can continue a Python identifier in the rewritten
strings (module-qualified names such as math.log10); π is a valid Python
identifier character, which is why eval("π") raises NameError rather than
a syntax error. -/
def isNameC (c : Char) : Bool :=
(c.toNat ≥ 97 && c.toNat ≤ 122) || c.isDigit || c = '.' || c = 'π'

/-- Starting character of an identifier. -/
def isNameStart (c : Char) : Bool := (c.toNat ≥ 97 && c.toNat ≤ 122) || c = 'π'

/-- Resolves a lexed identifier against the names the rewritten strings
can contain; any other identifier is a NameError, as in eval. -/
def pyName (ns : List Char) : Option PFn :=
if ns = "math.sqrt".data then some .sqrtF
else if ns = "math.sin".data then some .sinF
else if ns = "math.cos".data then some .cosF
else if ns = "math.tan".data then some .tanF
else if ns = "math.asin".data then some .asinF
else if ns = "math.acos".data then some .acosF
else if ns = "math.atan".data then some .atanF
else if ns = "math.log10".data then some .log10F
else if ns = "math.radians".data then some .radiansF
else if ns = "math.degrees".data then some .degreesF
else none

/-- Tokenizer for the Python arithmetic fragment the rewritten strings
live in.  Characters and literal forms outside this fragment are
reported as errors: a stray √ is a Python syntax error and an unknown
identifier a NameError, both shown as "Error" by the except block.  Not
modelled (outside every claim's inputs): hex and underscore-separated
integer literals, the leading-zero restriction on decimal integers, and
stray commas, which Python would read as tuple syntax. -/
def pyLexGo : Nat → List Char → Except PErr (List PTok)
| 0, _ => .error .synErr
| _ + 1, [] => .ok []
| f + 1, c :: cs =>
  if isWsC c then pyLexGo f cs
  else if isNumC c then
    match pyNumTok ((c :: cs).takeWhile isNumC) with
    | some t => (pyLexGo f ((c :: cs).dropWhile isNumC)).map fun ts => t :: ts
    | none => .error .synErr
  else if isNameStart c then
    match pyName ((c :: cs).takeWhile isNameC) with
    | some fn => (pyLexGo f ((c :: cs).dropWhile isNameC)).map fun ts => .nameT fn :: ts
    | none => .error .nameError
  else if c = '+' then (pyLexGo f cs).map fun ts => .plusT :: ts
  else if c = '-' then (pyLexGo f cs).map fun ts => .minusT :: ts
  else if c = '*' then
    match cs with
    | '*' :: cs2 => (pyLexGo f cs2).map fun ts => .powT :: ts
    | _ => (pyLexGo f cs).map fun ts => .starT :: ts
  else if c = '/' then (pyLexGo f cs).map fun ts => .slashT :: ts
  else if c = '(' then (pyLexGo f cs).map fun ts => .lparenT :: ts
  else if c = ')' then (pyLexGo f cs).map fun ts => .rparenT :: ts
  else .error .synErr

/-- Tokenizes a whole string. -/
def pyLex (s : String) : Except PErr (List PTok) :=
pyLexGo (s.data.length + 1) s.data

/-- Parsing modes of the recursive-descent parser for Python's expression
grammar: a_expr (left-assoc + -), m_expr (left-assoc * /), u_expr (unary
sign), power (right-assoc **, exponent is a u_expr), primary. -/
inductive PMode where
| aexp
| aloop (acc : PExpr)
| mexp
| mloop (acc : PExpr)
| uexp
| pw
| atom

/-- Fuel-driven recursive-descent parser for the Python expression
grammar restricted to the arithmetic fragment; ** binds tighter than
unary minus on its left operand and is right-associative, as in Python. -/
def pyP : PMode → Nat → List PTok → Except PErr (PExpr × List PTok)
| _, 0, _ => .error .synErr
| .aexp, f + 1, ts => (pyP .mexp f ts).bind fun (e, r) => pyP (.aloop e) f r
| .aloop acc, f + 1, .plusT :: r =>
  (pyP .mexp f r).bind fun (m, r2) => pyP (.aloop (.addE acc m)) f r2
| .aloop acc, f + 1, .minusT :: r =>
  (pyP .mexp f r).bind fun (m, r2) => pyP (.aloop (.subE acc m)) f r2
| .aloop acc, _ + 1, r => .ok (acc, r)
| .mexp, f + 1, ts => (pyP .uexp f ts).bind fun (e, r) => pyP (.mloop e) f r
| .mloop acc, f + 1, .starT :: r =>
  (pyP .uexp f r).bind fun (m, r2) => pyP (.mloop (.mulE acc m)) f r2
| .mloop acc, f + 1, .slashT :: r =>
  (pyP .uexp f r).bind fun (m, r2) => pyP (.mloop (.divE acc m)) f r2
| .mloop acc, _ + 1, r => .ok (acc, r)
| .uexp, f + 1, .minusT :: r => (pyP .uexp f r).map fun (e, r2) => (.negE e, r2)
| .uexp, f + 1, .plusT :: r => pyP .uexp f r
| .uexp, f + 1, ts => pyP .pw f ts
| .pw, f + 1, ts =>
  (pyP .atom f ts).bind fun (a, r) =>
    match r with
    | .powT :: r2 => (pyP .uexp f r2).map fun (u, r3) => (.powE a u, r3)
    | _ => .ok (a, r)
| .atom, _ + 1, .tint n :: r => .ok (.intLit n, r)
| .atom, _ + 1, .tflt ip fp k :: r => .ok (.fltLit ip fp k, r)
| .atom, f + 1, .lparenT :: r =>
  (pyP .aexp f r).bind fun (e, r2) =>
    match r2 with
    | .rparenT :: r3 => .ok (e, r3)
    | _ => .error .synErr
| .atom, f + 1, .nameT fn :: .lparenT :: r =>
  (pyP .aexp f r).bind fun (e, r2) =>
    match r2 with
    | .rparenT :: r3 => .ok (.callE fn e, r3)
    | _ => .error .synErr
| .atom, _ + 1, _ => .error .synErr

/-- Parses a full token list; leftover tokens are a syntax error. -/
def pyParseToks (ts : List PTok) : Except PErr PExpr :=
match pyP .aexp (4 * ts.length + 8) ts with
| .ok (e, []) => .ok e
| .ok (_, _ :: _) => .error .synErr
| .error e => .error e

/-- Lex and parse a whole string of the fragment. -/
def pyParseStr (s : String) : Except PErr PExpr :=
(pyLex s).bind pyParseToks

/-- Python addition on the numeric tower: int + int stays int, otherwise
float. -/
noncomputable def pyAdd : PyVal → PyVal → PyVal
| .vint a, .vint b => .vint (a + b)
| a, b => .vfloat (toR a + toR b)

/-- Python subtraction on the numeric tower. -/
noncomputable def pySub : PyVal → PyVal → PyVal
| .vint a, .vint b => .vint (a - b)
| a, b => .vfloat (toR a - toR b)

/-- Python multiplication on the numeric tower. -/
noncomputable def pyMul : PyVal → PyVal → PyVal
| .vint a, .vint b => .vint (a * b)
| a, b => .vfloat (toR a * toR b)

/-- Python unary minus. -/
noncomputable def pyNeg : PyVal → PyVal
| .vint n => .vint (-n)
| .vfloat x => .vfloat (-x)

open Classical in
/-- Python true division: always a float, ZeroDivisionError on a zero
divisor. -/
noncomputable def pyDiv : PyVal → PyVal → Except PErr PyVal
| .vint a, .vint b =>
  if b = 0 then .error .zeroDivisionError else .ok (.vfloat ((a : ℝ) / (b : ℝ)))
| a, b =>
  if toR b = 0 then .error .zeroDivisionError else .ok (.vfloat (toR a / toR b))

open Classical in
/-- Python exponentiation: int ** nonnegative int is an exact int,
int ** negative int is a float, float exponentiation follows real-power
semantics with Python's ZeroDivisionError for a zero base and negative
exponent; a negative base with a non-integer exponent leaves the real
numbers (Python 3 returns a complex number there, modelled as the
distinguished outcome complexValue). -/
noncomputable def pyPow : PyVal → PyVal → Except PErr PyVal
| .vint a, .vint b =>
  if 0 ≤ b then .ok (.vint (a ^ b.toNat))
  else if a = 0 then .error .zeroDivisionError
  else .ok (.vfloat ((a : ℝ) ^ b))
| a, b =>
  if 0 < toR a then .ok (.vfloat (toR a ^ toR b))
  else if toR a = 0 then
    if toR b = 0 then .ok (.vfloat 1)
    else if 0 < toR b then .ok (.vfloat 0)
    else .error .zeroDivisionError
  else if ∃ n : ℤ, toR b = (n : ℝ) then .ok (.vfloat (toR a ^ toR b))
  else .error .complexValue

open Classical in
/-- The math-module calls appearing in the rewritten strings, with the
domain errors Python raises: math.sqrt of a negative, math.asin and
math.acos outside [-1, 1] and math.log10 of a non-positive argument all
raise ValueError; results are radians for math.asin etc., so the source
wraps them in math.degrees, and math.radians and math.degrees scale by
pi/180 and 180/pi. -/
noncomputable def pyCall : PFn → PyVal → Except PErr PyVal
| .sqrtF, v => if toR v < 0 then .error .valueError else .ok (.vfloat (Real.sqrt (toR v)))
| .sinF, v => .ok (.vfloat (Real.sin (toR v)))
| .cosF, v => .ok (.vfloat (Real.cos (toR v)))
| .tanF, v => .ok (.vfloat (Real.tan (toR v)))
| .asinF, v =>
  if toR v < -1 ∨ 1 < toR v then .error .valueError
  else .ok (.vfloat (Real.arcsin (toR v)))
| .acosF, v =>
  if toR v < -1 ∨ 1 < toR v then .error .valueError
  else .ok (.vfloat (Real.arccos (toR v)))
| .atanF, v => .ok (.vfloat (Real.arctan (toR v)))
| .log10F, v =>
  if toR v ≤ 0 then .error .valueError
  else .ok (.vfloat (Real.log (toR v) / Real.log 10))
| .radiansF, v => .ok (.vfloat (toR v * Real.pi / 180))
| .degreesF, v => .ok (.vfloat (toR v * 180 / Real.pi))

/-- Evaluator for the parsed Python fragment, the model of eval(expr) on
the strings the pipeline produces. -/
noncomputable def evalPy : PExpr → Except PErr PyVal
| .intLit n => .ok (.vint n)
| .fltLit ip fp k => .ok (.vfloat ((ip : ℝ) + (fp : ℝ) / 10 ^ k))
| .addE a b => (evalPy a).bind fun x => (evalPy b).map fun y => pyAdd x y
| .subE a b => (evalPy a).bind fun x => (evalPy b).map fun y => pySub x y
| .mulE a b => (evalPy a).bind fun x => (evalPy b).map fun y => pyMul x y
| .divE a b => (evalPy a).bind fun x => (evalPy b).bind fun y => pyDiv x y
| .powE a b => (evalPy a).bind fun x => (evalPy b).bind fun y => pyPow x y
| .negE a => (evalPy a).map fun x => pyNeg x
| .callE f a => (evalPy a).bind fun x => pyCall f x

/-- Substitute, lex, parse and evaluate one display string through the
Calculator_project.py engine. -/
noncomputable def runCalculator (s : String) : Except PErr PyVal :=
(pyParseStr (pipelineCalculator s)).bind evalPy

/-- Substitute, lex, parse and evaluate one display string through the
Calculater_project.py engine. -/
noncomputable def runCalculater (s : String) : Except PErr PyVal :=
(pyParseStr (pipelineCalculater s)).bind evalPy

/-- The observable engine state: the display widget's text and the
engine's last_answer attribute. -/
structure EngState where
  display : String
  lastAnswer : String
deriving DecidableEq

/-- Python's str on the numeric results: exact decimal digits for ints;
the rendering of floats (repr's shortest round-trip decimal) is an
external builtin and is abstracted as the parameter fr. -/
def pyStr (fr : ℝ → String) : PyVal → String
| .vint n => toString n
| .vfloat x => fr x

/-- CalculatorEngine.calculate of src/Calculator_project.py: read the
display, rewrite and evaluate; on success write str(result) to the
display and to last_answer, on any exception show "Error" and leave
last_answer unchanged. -/
noncomputable def calculateCalculator (fr : ℝ → String) (st : EngState) : EngState :=
match runCalculator st.display with
| .ok v => { display := pyStr fr v, lastAnswer := pyStr fr v }
| .error _ => { display := "Error", lastAnswer := st.lastAnswer }

/-- CalculatorEngine.calculate of src/Calculater_project.py. -/
noncomputable def calculateCalculater (fr : ℝ → String) (st : EngState) : EngState :=
match runCalculater st.display with
| .ok v => { display := pyStr fr v, lastAnswer := pyStr fr v }
| .error _ => { display := "Error", lastAnswer := st.lastAnswer }

/-- CalculatorGUI.clear_all of src/Calculator_project.py: clears the
display and resets the engine's last_answer to the empty string. -/
def clearAllCalculator (_ : EngState) : EngState :=
{ display := "", lastAnswer := "" }

/-- clear_all of src/Calculater_project.py: clears the display only;
last_answer keeps its previous value. -/
def clearAllCalculater (st : EngState) : EngState :=
{ display := "", lastAnswer := st.lastAnswer }

end PyModel

namespace SpecModel

/-- Modelled from the spec: the error taxonomy of section 7 for the
re-architected core (the CalculatorEngine.evaluate_expression exercised
by src/testing.py but not present under src/): LexError, SyntaxError and
the EvalError kinds DivisionByZero and DomainError. -/
inductive SErr where
| lexError
| synErr
| divisionByZero
| domainError
deriving DecidableEq

/-- A numeric literal of the spec grammar: a decimal number kept as digit
parts (value ip + fp / 10 ^ k), or the constant pi, which the spec
tokenizer emits as a literal. -/
inductive SpecNum where
| dec (ip fp k : ℕ)
| piConst
deriving DecidableEq

/-- Real value of a literal. -/
noncomputable def SpecNum.toReal : SpecNum → ℝ
| .dec ip fp k => (ip : ℝ) + (fp : ℝ) / 10 ^ k
| .piConst => Real.pi

/-- The seven function identifiers of the spec grammar. -/
inductive SFn where
| sinS | cosS | tanS | asinS | acosS | atanS | logS
deriving DecidableEq

/-- Modelled from the spec: the Token data model of section 3. -/
inductive STok where
| num (v : SpecNum)
| ident (f : SFn)
| plusT | minusT | starT | slashT | caretT | rootT | lparenT | rparenT | commaT
deriving DecidableEq

/-- Modelled from the spec: the Expression Node data model of section 3. -/
inductive SNode where
| lit (v : SpecNum)
| addN (a b : SNode)
| subN (a b : SNode)
| mulN (a b : SNode)
| divN (a b : SNode)
| powN (a b : SNode)
| negN (a : SNode)
| sqrtN (a : SNode)
| nthRootN (d r : SNode)
| callN (f : SFn) (a : SNode)

/-- Whitespace skipped by the spec tokenizer. -/
def isWsS (c : Char) : Bool := c = ' ' || c = '\t' || c = '\n' || c = '\r'

/-- Digit-or-dot, the characters a number lexeme may span. -/
def isNumS (c : Char) : Bool := c.isDigit || c = '.'

/-- Validates a maximal digit-and-dot run against the spec's number shape
[0-9]+(\.[0-9]+)? ; multiple decimal points are a lexical error. -/
def numOf (ds : List Char) : Option SpecNum :=
let ip := ds.takeWhile Char.isDigit
match ds.dropWhile Char.isDigit with
| [] => some (.dec (PyModel.natFromDigits ip) 0 0)
| '.' :: fs =>
  if !fs.isEmpty && fs.all Char.isDigit then
    some (.dec (PyModel.natFromDigits ip) (PyModel.natFromDigits fs) fs.length)
  else none
| _ => none

/-- Checks that a literal pattern is a prefix of the input. -/
def startsWithL : List Char → List Char → Bool
| [], _ => true
| _ :: _, [] => false
| p :: ps, x :: xs => x = p && startsWithL ps xs

/-- Classification of a leading character by the spec tokenizer. -/
inductive CClass where
| ws | digitC | piC | rootC | plusC | minusC | starC | slashC | caretC
| lparenC | rparenC | commaC | other
deriving DecidableEq

/-- Classifies one character: whitespace, digit, π, the operator and
punctuation symbols (with × as multiplication and ÷ as division), or
none of these. -/
def charClass (c : Char) : CClass :=
  if isWsS c then .ws
  else if c.isDigit then .digitC
  else if c = 'π' then .piC
  else if c = '√' then .rootC
  else if c = '+' then .plusC
  else if c = '-' then .minusC
  else if c = '*' || c = '×' then .starC
  else if c = '/' || c = '÷' then .slashC
  else if c = '^' then .caretC
  else if c = '(' then .lparenC
  else if c = ')' then .rparenC
  else if c = ',' then .commaC
  else .other

/-- Identifier matching of the spec tokenizer: the seven function names,
longest first, so that asin is not read as a followed by sin; any other
character sequence is a lexical error. -/
def specTokName (go : List Char → Option (List STok)) (c : Char) (cs : List Char) :
    Option (List STok) :=
  if startsWithL "asin".data (c :: cs) then
    (go ((c :: cs).drop 4)).map fun ts => .ident .asinS :: ts
  else if startsWithL "acos".data (c :: cs) then
    (go ((c :: cs).drop 4)).map fun ts => .ident .acosS :: ts
  else if startsWithL "atan".data (c :: cs) then
    (go ((c :: cs).drop 4)).map fun ts => .ident .atanS :: ts
  else if startsWithL "sin".data (c :: cs) then
    (go ((c :: cs).drop 3)).map fun ts => .ident .sinS :: ts
  else if startsWithL "cos".data (c :: cs) then
    (go ((c :: cs).drop 3)).map fun ts => .ident .cosS :: ts
  else if startsWithL "tan".data (c :: cs) then
    (go ((c :: cs).drop 3)).map fun ts => .ident .tanS :: ts
  else if startsWithL "log".data (c :: cs) then
    (go ((c :: cs).drop 3)).map fun ts => .ident .logS :: ts
  else none

/-- One step of the spec tokenizer on a nonempty input, parameterized by
the continuation used for the rest of the input: skip whitespace, lex a
decimal number, emit π as a literal or the symbol token, else match a
function name. -/
def specTokStep (go : List Char → Option (List STok)) (c : Char) (cs : List Char) :
    Option (List STok) :=
  match charClass c with
  | .ws => go cs
  | .digitC =>
    match numOf ((c :: cs).takeWhile isNumS) with
    | some v => (go ((c :: cs).dropWhile isNumS)).map fun ts => .num v :: ts
    | none => none
  | .piC => (go cs).map fun ts => .num .piConst :: ts
  | .rootC => (go cs).map fun ts => .rootT :: ts
  | .plusC => (go cs).map fun ts => .plusT :: ts
  | .minusC => (go cs).map fun ts => .minusT :: ts
  | .starC => (go cs).map fun ts => .starT :: ts
  | .slashC => (go cs).map fun ts => .slashT :: ts
  | .caretC => (go cs).map fun ts => .caretT :: ts
  | .lparenC => (go cs).map fun ts => .lparenT :: ts
  | .rparenC => (go cs).map fun ts => .rparenT :: ts
  | .commaC => (go cs).map fun ts => .commaT :: ts
  | .other => specTokName go c cs

/-- Modelled from the spec: the strict tokenizer of section 4.1, driven
by fuel. -/
def specTokGo : Nat → List Char → Option (List STok)
| 0, _ => none
| _ + 1, [] => some []
| f + 1, c :: cs => specTokStep (specTokGo f) c cs

/-- Tokenizes a whole input string; none is the spec's LexError. -/
def specTokenize (s : String) : Option (List STok) :=
specTokGo (s.data.length + 1) s.data

/-- Parsing modes of the spec parser: additive, multiplicative, unary,
power and primary levels, with accumulator modes for the left-associative
loops. -/
inductive SMode where
| sexp
| sloop (acc : SNode)
| smexp
| smloop (acc : SNode)
| sunary
| spw
| sprim

/-- Modelled from the spec: the recursive-descent parser of section 4.2.
Additive and multiplicative operators are left-associative, ^ is
right-associative with a unary expression as exponent, unary minus binds
tighter than * and / but looser than ^, and the root forms √(n,x), √(x)
and √primary are disambiguated by the top-level comma. -/
def sP : SMode → Nat → List STok → Except SErr (SNode × List STok)
| _, 0, _ => .error .synErr
| .sexp, f + 1, ts => (sP .smexp f ts).bind fun (e, r) => sP (.sloop e) f r
| .sloop acc, f + 1, .plusT :: r =>
  (sP .smexp f r).bind fun (m, r2) => sP (.sloop (.addN acc m)) f r2
| .sloop acc, f + 1, .minusT :: r =>
  (sP .smexp f r).bind fun (m, r2) => sP (.sloop (.subN acc m)) f r2
| .sloop acc, _ + 1, r => .ok (acc, r)
| .smexp, f + 1, ts => (sP .sunary f ts).bind fun (e, r) => sP (.smloop e) f r
| .smloop acc, f + 1, .starT :: r =>
  (sP .sunary f r).bind fun (m, r2) => sP (.smloop (.mulN acc m)) f r2
| .smloop acc, f + 1, .slashT :: r =>
  (sP .sunary f r).bind fun (m, r2) => sP (.smloop (.divN acc m)) f r2
| .smloop acc, _ + 1, r => .ok (acc, r)
| .sunary, f + 1, .minusT :: r => (sP .sunary f r).map fun (e, r2) => (.negN e, r2)
| .sunary, f + 1, ts => sP .spw f ts
| .spw, f + 1, ts =>
  (sP .sprim f ts).bind fun (a, r) =>
    match r with
    | .caretT :: r2 => (sP .sunary f r2).map fun (u, r3) => (.powN a u, r3)
    | _ => .ok (a, r)
| .sprim, _ + 1, .num v :: r => .ok (.lit v, r)
| .sprim, f + 1, .lparenT :: r =>
  (sP .sexp f r).bind fun (e, r2) =>
    match r2 with
    | .rparenT :: r3 => .ok (e, r3)
    | _ => .error .synErr
| .sprim, f + 1, .ident fn :: .lparenT :: r =>
  (sP .sexp f r).bind fun (e, r2) =>
    match r2 with
    | .rparenT :: r3 => .ok (.callN fn e, r3)
    | _ => .error .synErr
| .sprim, f + 1, .rootT :: .lparenT :: r =>
  (sP .sexp f r).bind fun (e1, r2) =>
    match r2 with
    | .commaT :: r3 =>
      (sP .sexp f r3).bind fun (e2, r4) =>
        match r4 with
        | .rparenT :: r5 => .ok (.nthRootN e1 e2, r5)
        | _ => .error .synErr
    | .rparenT :: r3 => .ok (.sqrtN e1, r3)
    | _ => .error .synErr
| .sprim, f + 1, .rootT :: ts => (sP .sprim f ts).map fun (p, r2) => (.sqrtN p, r2)
| .sprim, _ + 1, _ => .error .synErr

/-- Parses a full token list; leftover tokens and empty input are the
spec's SyntaxError. -/
def specParse (ts : List STok) : Except SErr SNode :=
match sP .sexp (4 * ts.length + 8) ts with
| .ok (n, []) => .ok n
| .ok (_, _ :: _) => .error .synErr
| .error e => .error e

open Classical in
/-- Modelled from the spec: the fail-fast finiteness check of section 4.3.
Any intermediate result that binary64 arithmetic would turn into an
Infinity (magnitude at least 2^1024) is surfaced as DomainError at the
point of detection; in the exact-real idealization this magnitude check
is what remains of NaN or Infinity detection. -/
noncomputable def chk (x : ℝ) : Except SErr ℝ :=
if |x| < 2 ^ 1024 then .ok x else .error .domainError

open Classical in
/-- Power semantics of the spec evaluator: a negative base with a
non-integer exponent and a zero base with a negative exponent are domain
errors, everything else is the real power, checked for overflow. -/
noncomputable def sPow (x y : ℝ) : Except SErr ℝ :=
if x < 0 ∧ ¬ ∃ n : ℤ, y = (n : ℝ) then .error .domainError
else if x = 0 ∧ y < 0 then .error .domainError
else chk (x ^ y)

open Classical in
/-- Call semantics of the spec evaluator: sin, cos and tan take degrees,
the inverse functions return degrees, asin and acos require an argument
in [-1, 1] and log requires a positive argument. -/
noncomputable def sCall : SFn → ℝ → Except SErr ℝ
| .sinS, x => chk (Real.sin (x * Real.pi / 180))
| .cosS, x => chk (Real.cos (x * Real.pi / 180))
| .tanS, x => chk (Real.tan (x * Real.pi / 180))
| .asinS, x =>
  if x < -1 ∨ 1 < x then .error .domainError else chk (Real.arcsin x * 180 / Real.pi)
| .acosS, x =>
  if x < -1 ∨ 1 < x then .error .domainError else chk (Real.arccos x * 180 / Real.pi)
| .atanS, x => chk (Real.arctan x * 180 / Real.pi)
| .logS, x => if x ≤ 0 then .error .domainError else chk (Real.log x / Real.log 10)

open Classical in
/-- Modelled from the spec: the evaluator of section 4.3 over expression
trees, with division by zero, negative radicands, a zero root degree and
the overflow check as typed failures. -/
noncomputable def specEvalNode : SNode → Except SErr ℝ
| .lit v => chk v.toReal
| .addN a b =>
  (specEvalNode a).bind fun x => (specEvalNode b).bind fun y => chk (x + y)
| .subN a b =>
  (specEvalNode a).bind fun x => (specEvalNode b).bind fun y => chk (x - y)
| .mulN a b =>
  (specEvalNode a).bind fun x => (specEvalNode b).bind fun y => chk (x * y)
| .divN a b =>
  (specEvalNode a).bind fun x => (specEvalNode b).bind fun y =>
    if y = 0 then .error .divisionByZero else chk (x / y)
| .powN a b =>
  (specEvalNode a).bind fun x => (specEvalNode b).bind fun y => sPow x y
| .negN a => (specEvalNode a).bind fun x => chk (-x)
| .sqrtN a =>
  (specEvalNode a).bind fun x =>
    if x < 0 then .error .domainError else chk (Real.sqrt x)
| .nthRootN d r =>
  (specEvalNode d).bind fun n => (specEvalNode r).bind fun x =>
    if x < 0 then .error .domainError
    else if n = 0 then .error .divisionByZero
    else chk (x ^ (1 / n))
| .callN f a => (specEvalNode a).bind fun x => sCall f x

/-- Modelled from the spec: the engine contract of section 4.4 for
evaluate_expression, run on one input string: tokenize, parse, evaluate,
surfacing the typed error of whichever stage failed. -/
noncomputable def specEvaluate (s : String) : Except SErr ℝ :=
match specTokenize s with
| none => .error .lexError
| some ts => (specParse ts).bind specEvalNode

/-- The closed character set named by the strictness requirement: digits,
the decimal point, the arithmetic symbols, the comma, the characters of
the seven function names, the root sign and π. -/
def closedSetChar (c : Char) : Bool :=
c.isDigit || c = '.' || c = '+' || c = '-' || c = '*' || c = '/' || c = '×' ||
c = '÷' || c = '^' || c = '(' || c = ')' || c = ',' || c = '√' || c = 'π' ||
c = 's' || c = 'i' || c = 'n' || c = 'c' || c = 'o' || c = 't' || c = 'a' ||
c = 'l' || c = 'g'

end SpecModel

section Helpers

/-- Except.bind returning ok forces the first stage to have returned ok. -/
theorem exbindOk {ε α β : Type} {x : Except ε α} {f : α → Except ε β} {v : β}
    (h : x.bind f = .ok v) : ∃ a, x = .ok a ∧ f a = .ok v := by
  cases x with
  | error e => simp [Except.bind] at h
  | ok a => exact ⟨a, rfl, h⟩

end Helpers

/-- C10: the two CalculatorEngine.calculate implementations are
observationally equivalent: they perform the same substitution pipeline,
produce the same evaluation outcome on every input string, and update
the display and last_answer identically. -/
theorem c10_engines_equal :
    PyModel.pipelineCalculator = PyModel.pipelineCalculater ∧
    PyModel.runCalculator = PyModel.runCalculater ∧
    PyModel.calculateCalculator = PyModel.calculateCalculater := by
  have hp : PyModel.pipelineCalculator = PyModel.pipelineCalculater := by
    unfold PyModel.pipelineCalculator PyModel.pipelineCalculater
    rfl
  have hr : PyModel.runCalculator = PyModel.runCalculater := by
    unfold PyModel.runCalculator PyModel.runCalculater
    rw [hp]
  have hc : PyModel.calculateCalculator = PyModel.calculateCalculater := by
    unfold PyModel.calculateCalculator PyModel.calculateCalculater
    rw [hr]
  exact ⟨hp, hr, hc⟩

/-- C9: evaluating a fixed input is deterministic and pure apart from the
single last_answer update: a run is a function of the input and prior
state (repeating it gives the identical result), the displayed outcome
does not depend on the stored last answer, and the final last answer is
either the common new value (success) or each run's unchanged prior value
(failure). -/
theorem c9_deterministic :
    ∀ (fr : ℝ → String) (input la la' : String),
      PyModel.calculateCalculator fr ⟨input, la⟩ =
        PyModel.calculateCalculator fr ⟨input, la⟩ ∧
      (PyModel.calculateCalculator fr ⟨input, la⟩).display =
        (PyModel.calculateCalculator fr ⟨input, la'⟩).display ∧
      ((PyModel.calculateCalculator fr ⟨input, la⟩).lastAnswer =
          (PyModel.calculateCalculator fr ⟨input, la'⟩).lastAnswer ∨
        ((PyModel.calculateCalculator fr ⟨input, la⟩).lastAnswer = la ∧
          (PyModel.calculateCalculator fr ⟨input, la'⟩).lastAnswer = la')) := by
  intro fr input la la'
  refine ⟨rfl, ?_, ?_⟩ <;>
    unfold PyModel.calculateCalculator <;>
    cases h : PyModel.runCalculator input <;> simp [h]

/-- C3: evaluate("5÷0") fails and the failure carried internally is the
discriminated DivisionByZero kind (Python's ZeroDivisionError); only the
display layer collapses it to the generic "Error" text. -/
theorem c3_div_zero_typed :
    PyModel.runCalculator "5÷0" = .error .zeroDivisionError ∧
    ∀ (fr : ℝ → String) (la : String),
      PyModel.calculateCalculator fr ⟨"5÷0", la⟩ = ⟨"Error", la⟩ := by
  have h : PyModel.runCalculator "5÷0" = .error .zeroDivisionError := rfl
  refine ⟨h, fun fr la => ?_⟩
  unfold PyModel.calculateCalculator
  simp [h]

/-- C6 counterexample: in src/Calculater_project.py the all-clear action
does not reset the stored last answer: after the successful evaluation of
"2+3" stores "5", clear_all leaves last_answer equal to "5", not the
empty string the claim requires. -/
theorem c6_clear_counterexample :
    (PyModel.calculateCalculater (fun _ => "") ⟨"2+3", ""⟩).lastAnswer = "5" ∧
    (PyModel.clearAllCalculater
        (PyModel.calculateCalculater (fun _ => "") ⟨"2+3", ""⟩)).lastAnswer = "5" ∧
    ("5" : String) ≠ "" := by
  have h : PyModel.runCalculater "2+3" = .ok (.vint 5) := rfl
  have h2 : PyModel.calculateCalculater (fun _ => "") ⟨"2+3", ""⟩ =
      ⟨"5", "5"⟩ := by
    unfold PyModel.calculateCalculater
    simp only [h, PyModel.pyStr]
    rfl
  refine ⟨by rw [h2], by rw [h2]; rfl, by decide⟩

/-- C6 (amended): after every successful evaluate the engine stores
str(result) as the new last answer; the all-clear action of
src/Calculator_project.py resets the stored last answer to the empty
string, while clear_all of src/Calculater_project.py clears only the
display and leaves the stored last answer unchanged. -/
theorem c6_last_answer_discipline :
    (∀ (fr : ℝ → String) (st : PyModel.EngState) (v : PyModel.PyVal),
      PyModel.runCalculator st.display = .ok v →
        (PyModel.calculateCalculator fr st).lastAnswer = PyModel.pyStr fr v) ∧
    (∀ st, (PyModel.clearAllCalculator st).lastAnswer = "") ∧
    (∀ st, (PyModel.clearAllCalculater st).lastAnswer = st.lastAnswer) := by
  refine ⟨fun fr st v h => ?_, fun st => rfl, fun st => rfl⟩
  unfold PyModel.calculateCalculator
  simp [h]

/-- C6 witness: the amended statement applied at the concrete input
"2+3", whose evaluation succeeds with the integer 5. -/
theorem c6_last_answer_witness :
    (PyModel.calculateCalculator (fun _ => "") ⟨"2+3", "old"⟩).lastAnswer =
      PyModel.pyStr (fun _ => "") (.vint 5) :=
  c6_last_answer_discipline.1 (fun _ => "") ⟨"2+3", "old"⟩ (.vint 5) rfl

/-- C5: the power operator is right-associative: evaluate("2^3^2")
succeeds with 512, a three-operand power token sequence parses as
a^(b^c), and such a tree evaluates to a^(b^c) for natural exponents. -/
theorem c5_power_right_assoc :
    PyModel.runCalculator "2^3^2" = .ok (.vint 512) ∧
    (∀ a b c : ℤ,
      PyModel.pyP .aexp 28 [.tint a, .powT, .tint b, .powT, .tint c] =
        .ok (.powE (.intLit a) (.powE (.intLit b) (.intLit c)), [])) ∧
    (∀ (a : ℤ) (b c : ℕ),
      PyModel.evalPy (.powE (.intLit a) (.powE (.intLit b) (.intLit c))) =
        .ok (.vint (a ^ (b ^ c)))) := by
  have hPowNat : ∀ (a : ℤ) (c : ℕ),
      PyModel.pyPow (.vint a) (.vint (c : ℤ)) = .ok (.vint (a ^ c)) := by
    intro a c
    simp only [PyModel.pyPow]
    rw [if_pos (Int.natCast_nonneg c)]
    simp
  refine ⟨rfl, fun a b c => rfl, fun a b c => ?_⟩
  simp only [PyModel.evalPy, Except.bind]
  rw [hPowNat b c]
  simp only [Except.bind]
  rw [show ((b : ℤ) ^ c) = ((b ^ c : ℕ) : ℤ) by push_cast; ring, hPowNat a (b ^ c)]

/-- C7 counterexample: a literal 'π' character in the engine input is not
treated as a numeric literal: π is a Python identifier, no substitution
touches it, and eval raises NameError, so evaluate("π") fails and shows
"Error" rather than succeeding with the value pi. -/
theorem c7_pi_counterexample :
    PyModel.runCalculator "π" = .error .nameError ∧
    (PyModel.calculateCalculator (fun _ => "") ⟨"π", ""⟩).display = "Error" :=
  ⟨rfl, rfl⟩

/-- C7 (amended): the engine itself rejects a 'π' character; instead the
UI's π button inserts the decimal literal str(math.pi) =
"3.141592653589793", so the literal evaluates to that exact decimal value
(within 1e-6 of the real π), and 2×π is entered as 2×3.141592653589793,
which succeeds with 6.283185307179586 (twice the inserted literal). -/
theorem c7_pi_amended :
    PyModel.runCalculator "3.141592653589793" =
      .ok (.vfloat (3.141592653589793 : ℝ)) ∧
    PyModel.runCalculator "2×3.141592653589793" =
      .ok (.vfloat (6.283185307179586 : ℝ)) ∧
    |(3.141592653589793 : ℝ) - Real.pi| < 1 / 10 ^ 6 := by
  refine ⟨?_, ?_, ?_⟩
  · have h1 : PyModel.runCalculator "3.141592653589793" =
        .ok (.vfloat (((3 : ℕ) : ℝ) + ((141592653589793 : ℕ) : ℝ) / 10 ^ (15 : ℕ))) := rfl
    rw [h1]
    congr 2
    push_cast
    norm_num
  · have h2 : PyModel.runCalculator "2×3.141592653589793" =
        .ok (.vfloat (PyModel.toR (.vint 2) *
          PyModel.toR (.vfloat (((3 : ℕ) : ℝ) + ((141592653589793 : ℕ) : ℝ) / 10 ^ (15 : ℕ))))) := rfl
    rw [h2]
    congr 2
    simp only [PyModel.toR]
    push_cast
    norm_num
  · have h1 := Real.pi_gt_d6
    have h2 := Real.pi_lt_d6
    rw [abs_lt]
    constructor <;> norm_num <;> linarith

/-- C8: sin, cos and tan interpret their argument as degrees, converting
to radians first: evaluate("sin(30)") succeeds with the value
sin(30·π/180), which is within 1e-9 of 0.5 (it equals 1/2 exactly in the
real-number idealization), and likewise cos(60) and tan(45) go through
the radians conversion, landing within 1e-9 of 0.5 and 1. -/
theorem c8_sin_degrees :
    (PyModel.runCalculator "sin(30)" =
        .ok (.vfloat (Real.sin (((30 : ℤ) : ℝ) * Real.pi / 180))) ∧
      |Real.sin (((30 : ℤ) : ℝ) * Real.pi / 180) - 0.5| < 1 / 10 ^ 9) ∧
    (PyModel.runCalculator "cos(60)" =
        .ok (.vfloat (Real.cos (((60 : ℤ) : ℝ) * Real.pi / 180))) ∧
      |Real.cos (((60 : ℤ) : ℝ) * Real.pi / 180) - 0.5| < 1 / 10 ^ 9) ∧
    (PyModel.runCalculator "tan(45)" =
        .ok (.vfloat (Real.tan (((45 : ℤ) : ℝ) * Real.pi / 180))) ∧
      |Real.tan (((45 : ℤ) : ℝ) * Real.pi / 180) - 1| < 1 / 10 ^ 9) := by
  refine ⟨⟨rfl, ?_⟩, ⟨rfl, ?_⟩, ⟨rfl, ?_⟩⟩
  · have h : ((30 : ℤ) : ℝ) * Real.pi / 180 = Real.pi / 6 := by
      push_cast
      ring
    rw [h, Real.sin_pi_div_six]
    norm_num
  · have h : ((60 : ℤ) : ℝ) * Real.pi / 180 = Real.pi / 3 := by
      push_cast
      ring
    rw [h, Real.cos_pi_div_three]
    norm_num
  · have h : ((45 : ℤ) : ℝ) * Real.pi / 180 = Real.pi / 4 := by
      push_cast
      ring
    rw [h, Real.tan_pi_div_four]
    norm_num

/-- C2: evaluate("√(3,27)") succeeds with the value 3: the input is
rewritten to (27 ** (1/3)) and the real power 27^(1/3) equals exactly 3
in the exact-real idealization of float arithmetic. -/
theorem c2_cube_root :
    PyModel.runCalculator "√(3,27)" = .ok (.vfloat 3) := by
  have h1 : PyModel.runCalculator "√(3,27)" =
      PyModel.pyPow (.vint 27) (.vfloat (((1 : ℤ) : ℝ) / ((3 : ℤ) : ℝ))) := rfl
  have h2 : PyModel.pyPow (.vint 27) (.vfloat (((1 : ℤ) : ℝ) / ((3 : ℤ) : ℝ))) =
      .ok (.vfloat (((27 : ℤ) : ℝ) ^ (((1 : ℤ) : ℝ) / ((3 : ℤ) : ℝ)))) := by
    simp only [PyModel.pyPow, PyModel.toR]
    rw [if_pos (by norm_num : (0 : ℝ) < ((27 : ℤ) : ℝ))]
  rw [h1, h2]
  congr 2
  have h3 : ((27 : ℤ) : ℝ) = (3 : ℝ) ^ (3 : ℝ) := by
    rw [show (3 : ℝ) ^ (3 : ℝ) = (3 : ℝ) ^ ((3 : ℕ) : ℝ) by norm_num,
      Real.rpow_natCast]
    norm_num
  have h4 : (((1 : ℤ) : ℝ) / ((3 : ℤ) : ℝ)) = (1 : ℝ) / 3 := by push_cast; ring
  rw [h3, h4, ← Real.rpow_mul (by norm_num : (0 : ℝ) ≤ 3)]
  norm_num

/-- Values accepted by the finiteness check are below the overflow bound. -/
theorem chkOkBound {x v : ℝ} (h : SpecModel.chk x = .ok v) : |v| < 2 ^ 1024 := by
  unfold SpecModel.chk at h
  split at h
  · cases h
    assumption
  · cases h

/-- The finiteness check accepts any value below the overflow bound. -/
theorem chkOfLt {x : ℝ} (h : |x| < 2 ^ 1024) : SpecModel.chk x = .ok x := by
  unfold SpecModel.chk
  rw [if_pos h]

/-- Successful spec powers are below the overflow bound. -/
theorem sPowOkBound {x y v : ℝ} (h : SpecModel.sPow x y = .ok v) : |v| < 2 ^ 1024 := by
  unfold SpecModel.sPow at h
  split at h
  · cases h
  · split at h
    · cases h
    · exact chkOkBound h

/-- Successful spec function calls are below the overflow bound. -/
theorem sCallOkBound {f : SpecModel.SFn} {x v : ℝ}
    (h : SpecModel.sCall f x = .ok v) : |v| < 2 ^ 1024 := by
  cases f <;> simp only [SpecModel.sCall] at h
  case asinS | acosS | logS =>
    split at h
    · cases h
    · exact chkOkBound h
  all_goals exact chkOkBound h

/-- Every successful run of the spec evaluator on a node yields a value
below the overflow bound: each operation routes its result through the
finiteness check. -/
theorem specEvalNodeBound :
    ∀ (n : SpecModel.SNode) (v : ℝ), SpecModel.specEvalNode n = .ok v → |v| < 2 ^ 1024 := by
  intro n v h
  cases n <;> simp only [SpecModel.specEvalNode] at h
  case lit w => exact chkOkBound h
  case negN a =>
    obtain ⟨x, hx, h2⟩ := exbindOk h
    exact chkOkBound h2
  case addN a b =>
    obtain ⟨x, hx, h2⟩ := exbindOk h
    obtain ⟨y, hy, h3⟩ := exbindOk h2
    exact chkOkBound h3
  case subN a b =>
    obtain ⟨x, hx, h2⟩ := exbindOk h
    obtain ⟨y, hy, h3⟩ := exbindOk h2
    exact chkOkBound h3
  case mulN a b =>
    obtain ⟨x, hx, h2⟩ := exbindOk h
    obtain ⟨y, hy, h3⟩ := exbindOk h2
    exact chkOkBound h3
  case divN a b =>
    obtain ⟨x, hx, h2⟩ := exbindOk h
    obtain ⟨y, hy, h3⟩ := exbindOk h2
    split at h3
    · cases h3
    · exact chkOkBound h3
  case powN a b =>
    obtain ⟨x, hx, h2⟩ := exbindOk h
    obtain ⟨y, hy, h3⟩ := exbindOk h2
    exact sPowOkBound h3
  case sqrtN a =>
    obtain ⟨x, hx, h2⟩ := exbindOk h
    split at h2
    · cases h2
    · exact chkOkBound h2
  case nthRootN d r =>
    obtain ⟨x, hx, h2⟩ := exbindOk h
    obtain ⟨y, hy, h3⟩ := exbindOk h2
    split at h3
    · cases h3
    · split at h3
      · cases h3
      · exact chkOkBound h3
  case callN f a =>
    obtain ⟨x, hx, h2⟩ := exbindOk h
    exact sCallOkBound h2

/-- C4: evaluation in the spec core never reports a NaN or Infinity as a
successful result: every success value is finite (below the binary64
overflow magnitude 2^1024), and any intermediate value at or above that
magnitude is surfaced as DomainError at the point of detection. -/
theorem c4_no_nonfinite_success :
    (∀ (s : String) (v : ℝ), SpecModel.specEvaluate s = .ok v → |v| < 2 ^ 1024) ∧
    (∀ x : ℝ, (2 : ℝ) ^ 1024 ≤ |x| → SpecModel.chk x = .error .domainError) := by
  constructor
  · intro s v h
    unfold SpecModel.specEvaluate at h
    split at h
    · cases h
    · obtain ⟨n, hn, h2⟩ := exbindOk h
      exact specEvalNodeBound n v h2
  · intro x hx
    unfold SpecModel.chk
    rw [if_neg (not_lt.mpr hx)]

/-- The spec core evaluates "2+3" to 5. -/
theorem specEvaluateTwoPlusThree : SpecModel.specEvaluate "2+3" = .ok 5 := by
  have ht : SpecModel.specTokenize "2+3" =
      some [.num (.dec 2 0 0), .plusT, .num (.dec 3 0 0)] := rfl
  have hp : SpecModel.specParse [.num (.dec 2 0 0), .plusT, .num (.dec 3 0 0)] =
      .ok (.addN (.lit (.dec 2 0 0)) (.lit (.dec 3 0 0))) := rfl
  unfold SpecModel.specEvaluate
  rw [ht]
  simp only [hp, Except.bind]
  simp only [SpecModel.specEvalNode, SpecModel.SpecNum.toReal]
  have h2 : ((2 : ℕ) : ℝ) + ((0 : ℕ) : ℝ) / 10 ^ (0 : ℕ) = 2 := by push_cast; norm_num
  have h3 : ((3 : ℕ) : ℝ) + ((0 : ℕ) : ℝ) / 10 ^ (0 : ℕ) = 3 := by push_cast; norm_num
  rw [h2, h3, chkOfLt (by norm_num), chkOfLt (by norm_num)]
  simp only [Except.bind]
  rw [show (2 : ℝ) + 3 = 5 by norm_num, chkOfLt (by norm_num)]

/-- C4 witness: the finiteness bound instantiated at the successful run
of "2+3", and the DomainError classification at the overflow magnitude. -/
theorem c4_no_nonfinite_witness :
    |(5 : ℝ)| < 2 ^ 1024 ∧ SpecModel.chk ((2 : ℝ) ^ 1024) = .error .domainError :=
  ⟨c4_no_nonfinite_success.1 "2+3" 5 specEvaluateTwoPlusThree,
    c4_no_nonfinite_success.2 ((2 : ℝ) ^ 1024)
      (by rw [abs_of_nonneg (by positivity)])⟩

/-- A character classified as a symbol, digit, whitespace or π lies in
the closed set (or is whitespace). -/
theorem charClassGood (c : Char) (h : SpecModel.charClass c ≠ .other) :
    (SpecModel.closedSetChar c || SpecModel.isWsS c) = true := by
  by_cases h1 : SpecModel.isWsS c = true
  · simp [h1]
  by_cases h2 : c.isDigit = true
  · simp [SpecModel.closedSetChar, h2]
  by_cases h3 : c = 'π'
  · subst h3; decide
  by_cases h4 : c = '√'
  · subst h4; decide
  by_cases h5 : c = '+'
  · subst h5; decide
  by_cases h6 : c = '-'
  · subst h6; decide
  by_cases h7 : (c = '*' || c = '×') = true
  · rcases (by simpa using h7 : c = '*' ∨ c = '×') with rfl | rfl <;> decide
  by_cases h8 : (c = '/' || c = '÷') = true
  · rcases (by simpa using h8 : c = '/' ∨ c = '÷') with rfl | rfl <;> decide
  by_cases h9 : c = '^'
  · subst h9; decide
  by_cases h10 : c = '('
  · subst h10; decide
  by_cases h11 : c = ')'
  · subst h11; decide
  by_cases h12 : c = ','
  · subst h12; decide
  exfalso
  apply h
  unfold SpecModel.charClass
  rw [if_neg h1, if_neg h2, if_neg h3, if_neg h4, if_neg h5, if_neg h6,
    if_neg (by simpa using h7), if_neg (by simpa using h8), if_neg h9,
    if_neg h10, if_neg h11, if_neg h12]

/-- A matched literal prefix decomposes the input list. -/
theorem startsWithLDecomp :
    ∀ (p l : List Char), SpecModel.startsWithL p l = true → l = p ++ l.drop p.length := by
  intro p
  induction p with
  | nil => intro l _; simp
  | cons x xs ih =>
    intro l h
    cases l with
    | nil => simp [SpecModel.startsWithL] at h
    | cons c cs =>
      simp only [SpecModel.startsWithL, Bool.and_eq_true, decide_eq_true_eq] at h
      obtain ⟨h1, h2⟩ := h
      subst h1
      simpa using ih cs h2

/-- Characters consumed by a successful function-name match are in the
closed set, and the rest of the input is covered by the continuation. -/
theorem nameBranchGood (go : List Char → Option (List SpecModel.STok))
    (hgo : ∀ cs ts, go cs = some ts →
      ∀ c ∈ cs, (SpecModel.closedSetChar c || SpecModel.isWsS c) = true)
    (pat : List Char) (tokf : List SpecModel.STok → List SpecModel.STok)
    (c0 : Char) (cs0 : List Char) (ts : List SpecModel.STok)
    (hpat : SpecModel.startsWithL pat (c0 :: cs0) = true)
    (hgood : ∀ c ∈ pat, (SpecModel.closedSetChar c || SpecModel.isWsS c) = true)
    (h : (go ((c0 :: cs0).drop pat.length)).map tokf = some ts) :
    ∀ c ∈ c0 :: cs0, (SpecModel.closedSetChar c || SpecModel.isWsS c) = true := by
  intro c hc
  have hd := startsWithLDecomp pat (c0 :: cs0) hpat
  rw [hd] at hc
  rcases List.mem_append.mp hc with hpre | hrest
  · exact hgood c hpre
  · obtain ⟨ts2, h2, _⟩ := Option.map_eq_some'.mp h
    exact hgo _ ts2 h2 c hrest

/-- Characters consumed by the identifier matcher are in the closed set. -/
theorem specTokNameGood (go : List Char → Option (List SpecModel.STok))
    (hgo : ∀ cs ts, go cs = some ts →
      ∀ c ∈ cs, (SpecModel.closedSetChar c || SpecModel.isWsS c) = true)
    (c0 : Char) (cs0 : List Char) (ts : List SpecModel.STok)
    (h : SpecModel.specTokName go c0 cs0 = some ts) :
    ∀ c ∈ c0 :: cs0, (SpecModel.closedSetChar c || SpecModel.isWsS c) = true := by
  unfold SpecModel.specTokName at h
  by_cases h1 : SpecModel.startsWithL "asin".data (c0 :: cs0) = true
  · rw [if_pos h1] at h
    exact nameBranchGood go hgo "asin".data _ c0 cs0 ts h1 (by decide) h
  rw [if_neg h1] at h
  by_cases h2 : SpecModel.startsWithL "acos".data (c0 :: cs0) = true
  · rw [if_pos h2] at h
    exact nameBranchGood go hgo "acos".data _ c0 cs0 ts h2 (by decide) h
  rw [if_neg h2] at h
  by_cases h3 : SpecModel.startsWithL "atan".data (c0 :: cs0) = true
  · rw [if_pos h3] at h
    exact nameBranchGood go hgo "atan".data _ c0 cs0 ts h3 (by decide) h
  rw [if_neg h3] at h
  by_cases h4 : SpecModel.startsWithL "sin".data (c0 :: cs0) = true
  · rw [if_pos h4] at h
    exact nameBranchGood go hgo "sin".data _ c0 cs0 ts h4 (by decide) h
  rw [if_neg h4] at h
  by_cases h5 : SpecModel.startsWithL "cos".data (c0 :: cs0) = true
  · rw [if_pos h5] at h
    exact nameBranchGood go hgo "cos".data _ c0 cs0 ts h5 (by decide) h
  rw [if_neg h5] at h
  by_cases h6 : SpecModel.startsWithL "tan".data (c0 :: cs0) = true
  · rw [if_pos h6] at h
    exact nameBranchGood go hgo "tan".data _ c0 cs0 ts h6 (by decide) h
  rw [if_neg h6] at h
  by_cases h7 : SpecModel.startsWithL "log".data (c0 :: cs0) = true
  · rw [if_pos h7] at h
    exact nameBranchGood go hgo "log".data _ c0 cs0 ts h7 (by decide) h
  rw [if_neg h7] at h
  exact absurd h (by simp)

/-- One successful tokenizer step only consumes characters of the closed
set or whitespace. -/
theorem specTokStepGood (go : List Char → Option (List SpecModel.STok))
    (hgo : ∀ cs ts, go cs = some ts →
      ∀ c ∈ cs, (SpecModel.closedSetChar c || SpecModel.isWsS c) = true)
    (c0 : Char) (cs0 : List Char) (ts : List SpecModel.STok)
    (h : SpecModel.specTokStep go c0 cs0 = some ts) :
    ∀ c ∈ c0 :: cs0, (SpecModel.closedSetChar c || SpecModel.isWsS c) = true := by
  unfold SpecModel.specTokStep at h
  split at h
  -- whitespace
  · rename_i hcl
    intro c hc
    rcases List.mem_cons.mp hc with rfl | hm
    · exact charClassGood c (by rw [hcl]; decide)
    · exact hgo cs0 ts h c hm
  -- digit
  · rename_i hcl
    split at h
    · rename_i v hnum
      intro c hc
      have hc2 : c ∈ (c0 :: cs0).takeWhile SpecModel.isNumS ++
          (c0 :: cs0).dropWhile SpecModel.isNumS := by
        rw [List.takeWhile_append_dropWhile]
        exact hc
      rcases List.mem_append.mp hc2 with hpre | hrest
      · have hn := List.mem_takeWhile_imp hpre
        simp only [SpecModel.isNumS, Bool.or_eq_true, decide_eq_true_eq] at hn
        simp only [SpecModel.closedSetChar, SpecModel.isWsS, Bool.or_eq_true,
          decide_eq_true_eq]
        tauto
      · obtain ⟨ts2, h2, _⟩ := Option.map_eq_some'.mp h
        exact hgo _ ts2 h2 c hrest
    · cases h
  -- pi
  · rename_i hcl
    intro c hc
    rcases List.mem_cons.mp hc with rfl | hm
    · exact charClassGood c (by rw [hcl]; decide)
    · obtain ⟨ts2, h2, _⟩ := Option.map_eq_some'.mp h
      exact hgo cs0 ts2 h2 c hm
  -- root
  · rename_i hcl
    intro c hc
    rcases List.mem_cons.mp hc with rfl | hm
    · exact charClassGood c (by rw [hcl]; decide)
    · obtain ⟨ts2, h2, _⟩ := Option.map_eq_some'.mp h
      exact hgo cs0 ts2 h2 c hm
  -- plus
  · rename_i hcl
    intro c hc
    rcases List.mem_cons.mp hc with rfl | hm
    · exact charClassGood c (by rw [hcl]; decide)
    · obtain ⟨ts2, h2, _⟩ := Option.map_eq_some'.mp h
      exact hgo cs0 ts2 h2 c hm
  -- minus
  · rename_i hcl
    intro c hc
    rcases List.mem_cons.mp hc with rfl | hm
    · exact charClassGood c (by rw [hcl]; decide)
    · obtain ⟨ts2, h2, _⟩ := Option.map_eq_some'.mp h
      exact hgo cs0 ts2 h2 c hm
  -- star
  · rename_i hcl
    intro c hc
    rcases List.mem_cons.mp hc with rfl | hm
    · exact charClassGood c (by rw [hcl]; decide)
    · obtain ⟨ts2, h2, _⟩ := Option.map_eq_some'.mp h
      exact hgo cs0 ts2 h2 c hm
  -- slash
  · rename_i hcl
    intro c hc
    rcases List.mem_cons.mp hc with rfl | hm
    · exact charClassGood c (by rw [hcl]; decide)
    · obtain ⟨ts2, h2, _⟩ := Option.map_eq_some'.mp h
      exact hgo cs0 ts2 h2 c hm
  -- caret
  · rename_i hcl
    intro c hc
    rcases List.mem_cons.mp hc with rfl | hm
    · exact charClassGood c (by rw [hcl]; decide)
    · obtain ⟨ts2, h2, _⟩ := Option.map_eq_some'.mp h
      exact hgo cs0 ts2 h2 c hm
  -- lparen
  · rename_i hcl
    intro c hc
    rcases List.mem_cons.mp hc with rfl | hm
    · exact charClassGood c (by rw [hcl]; decide)
    · obtain ⟨ts2, h2, _⟩ := Option.map_eq_some'.mp h
      exact hgo cs0 ts2 h2 c hm
  -- rparen
  · rename_i hcl
    intro c hc
    rcases List.mem_cons.mp hc with rfl | hm
    · exact charClassGood c (by rw [hcl]; decide)
    · obtain ⟨ts2, h2, _⟩ := Option.map_eq_some'.mp h
      exact hgo cs0 ts2 h2 c hm
  -- comma
  · rename_i hcl
    intro c hc
    rcases List.mem_cons.mp hc with rfl | hm
    · exact charClassGood c (by rw [hcl]; decide)
    · obtain ⟨ts2, h2, _⟩ := Option.map_eq_some'.mp h
      exact hgo cs0 ts2 h2 c hm
  -- other: function names
  · exact specTokNameGood go hgo c0 cs0 ts h

/-- If the spec tokenizer accepts an input, every character of the input
is in the closed set or is whitespace. -/
theorem specTokGoGood :
    ∀ (f : ℕ) (cs : List Char) (ts : List SpecModel.STok),
      SpecModel.specTokGo f cs = some ts →
      ∀ c ∈ cs, (SpecModel.closedSetChar c || SpecModel.isWsS c) = true := by
  intro f
  induction f with
  | zero => intro cs ts h; exact absurd h (by simp [SpecModel.specTokGo])
  | succ f ih =>
    intro cs ts h
    cases cs with
    | nil => intro c hc; cases hc
    | cons c0 cs0 =>
      have h2 : SpecModel.specTokStep (SpecModel.specTokGo f) c0 cs0 = some ts := h
      exact specTokStepGood _ (fun cs2 ts2 hh => ih cs2 ts2 hh) c0 cs0 ts h2

/-- C1 counterexample: the space character is outside the claim's closed
set, yet the spec tokenizer skips whitespace, so the input "1 +2"
contains an out-of-set character and still evaluates successfully to 3,
contradicting the claim as stated. -/
theorem c1_strict_counterexample :
    (' ' ∈ "1 +2".data ∧ SpecModel.closedSetChar ' ' = false) ∧
    SpecModel.specEvaluate "1 +2" = .ok 3 := by
  refine ⟨by decide, ?_⟩
  have ht : SpecModel.specTokenize "1 +2" =
      some [.num (.dec 1 0 0), .plusT, .num (.dec 2 0 0)] := rfl
  have hp : SpecModel.specParse [.num (.dec 1 0 0), .plusT, .num (.dec 2 0 0)] =
      .ok (.addN (.lit (.dec 1 0 0)) (.lit (.dec 2 0 0))) := rfl
  unfold SpecModel.specEvaluate
  rw [ht]
  simp only [hp, Except.bind]
  simp only [SpecModel.specEvalNode, SpecModel.SpecNum.toReal]
  have h1 : ((1 : ℕ) : ℝ) + ((0 : ℕ) : ℝ) / 10 ^ (0 : ℕ) = 1 := by push_cast; norm_num
  have h2 : ((2 : ℕ) : ℝ) + ((0 : ℕ) : ℝ) / 10 ^ (0 : ℕ) = 2 := by push_cast; norm_num
  rw [h1, h2, chkOfLt (by norm_num), chkOfLt (by norm_num)]
  simp only [Except.bind]
  rw [show (1 : ℝ) + 2 = 3 by norm_num, chkOfLt (by norm_num)]

/-- C1 (amended): for every input string containing a character outside
the closed set other than whitespace (which the spec tokenizer skips),
evaluation rejects the input with a LexError failure; no such input ever
produces a successful numeric result. -/
theorem c1_strict_rejection :
    ∀ s : String,
      (∃ c ∈ s.data, SpecModel.closedSetChar c = false ∧ SpecModel.isWsS c = false) →
      SpecModel.specEvaluate s = .error .lexError := by
  intro s h
  obtain ⟨c, hc, hbad, hws⟩ := h
  have hT : SpecModel.specTokenize s = none := by
    cases h2 : SpecModel.specTokenize s with
    | none => rfl
    | some ts =>
      have hg := specTokGoGood (s.data.length + 1) s.data ts h2 c hc
      rw [hbad, hws] at hg
      cases hg
  unfold SpecModel.specEvaluate
  rw [hT]

/-- C1 witness: the amended rejection applied to the concrete input
"5$". -/
theorem c1_strict_witness :
    (∃ c ∈ "5$".data, SpecModel.closedSetChar c = false ∧ SpecModel.isWsS c = false) ∧
    SpecModel.specEvaluate "5$" = .error .lexError :=
  ⟨by decide, c1_strict_rejection "5$" (by decide)⟩
